import Mathlib

/-
Verification of the guestkit guest-disk engine and its Python wrapper.

The Python wrapper (`integration/python/guestkit_wrapper.py`) is embedded
directly: Python strings become `List Char`, Python floats become exact
rationals (`Rat`), and the subprocess boundary becomes an explicit
`SpawnOutcome` value.  The core engine (container-format decoders, the
handle state machine, the attachment registry) ships as a separate binary
whose sources are not part of this tree; those components are modelled
from the specification, with each such definition marked in its doc
comment.
-/

set_option autoImplicit false

namespace Guestkit

/-! ## Python string primitives over `List Char`

`guestkit_wrapper.py` manipulates strings with `split`, `strip`,
`rstrip`, `find` and the `in` operator.  These are embedded over
`List Char` so that every step of the wrapper's parsing is explicit. -/

/-- Boolean prefix test on lists, mirroring the comparisons Python's
`str.split`/`str.startswith` perform character by character. -/
def isPrefixB {α : Type} [BEq α] : List α → List α → Bool
  | [], _ => true
  | _ :: _, [] => false
  | a :: as, b :: bs => a == b && isPrefixB as bs

/-- Python's `needle in hay` substring test. -/
def containsSub {α : Type} [BEq α] (needle : List α) : List α → Bool
  | [] => needle.isEmpty
  | a :: rest => isPrefixB needle (a :: rest) || containsSub needle rest

/-- Worker for `splitOnSub`: scans left to right, splitting at each
non-overlapping occurrence of `sep`, exactly like Python's `str.split(sep)`
for a non-empty separator. -/
def splitOnSubGo {α : Type} [BEq α] (sep : List α) : List α → List α → List (List α)
  | [], acc => [acc.reverse]
  | a :: rest, acc =>
    if isPrefixB sep (a :: rest) then
      acc.reverse :: splitOnSubGo sep (rest.drop (sep.length - 1)) []
    else
      splitOnSubGo sep rest (a :: acc)
termination_by s _ => s.length
decreasing_by
  · simp only [List.length_cons, List.length_drop]
    omega
  · simp only [List.length_cons]
    omega

/-- Python's `s.split(sep)` for a non-empty separator `sep`. -/
def splitOnSub {α : Type} [BEq α] (sep s : List α) : List (List α) :=
  splitOnSubGo sep s []

/-- The whitespace characters stripped by Python's `str.strip()`. -/
def isPyWs (c : Char) : Bool :=
  c == ' ' || c == '\t' || c == '\n' || c == '\r' || c == '\x0b' || c == '\x0c'

/-- Python's `s.strip()` with no argument. -/
def stripWs (s : List Char) : List Char :=
  ((s.dropWhile isPyWs).reverse.dropWhile isPyWs).reverse

/-- Python's `s.rstrip('s')`: removes every trailing `s` character. -/
def rstrip_s (s : List Char) : List Char :=
  (s.reverse.dropWhile (fun c => c == 's')).reverse

/-- Convenience: the character list of a string literal. -/
def str (s : String) : List Char := s.data

/-! ## Python `float()` on decimal literals

`_extract_duration` calls `float(...)` on the text it slices out of a
log line.  `float` is modelled over exact rationals on the decimal
grammar `[ws] [sign] (digits [. digits] | . digits) [(e|E) [sign] digits] [ws]`;
the special spellings `inf`/`nan` and digit-group underscores are outside
the inputs this wrapper produces and are not modelled. -/

/-- Numeric value of a digit string (most significant first). -/
def digitsToNat (ds : List Char) : Nat :=
  ds.foldl (fun n c => n * 10 + (c.toNat - 48)) 0

/-- Ten to a natural power, as a rational. -/
def pow10 (n : Nat) : Rat := (10 : Rat) ^ n

/-- Consume an optional leading sign. -/
def parseSign : List Char → Int × List Char
  | '+' :: t => (1, t)
  | '-' :: t => (-1, t)
  | s => (1, s)

/-- Parse the exponent that follows `e`/`E`: optional sign then digits,
consuming the whole remaining input. -/
def parseExpPart (s : List Char) : Option Int :=
  let sg := (parseSign s).1
  let s1 := (parseSign s).2
  let ds := s1.takeWhile Char.isDigit
  let rest := s1.dropWhile Char.isDigit
  if ds.isEmpty || !rest.isEmpty then none else some (sg * (digitsToNat ds : Int))

/-- Scale a rational by a signed power of ten. -/
def applyExp (q : Rat) (e : Int) : Rat :=
  if 0 ≤ e then q * pow10 e.toNat else q / pow10 (-e).toNat

/-- Parse the unsigned mantissa `digits [. digits] | . digits`, returning
its value and the unconsumed tail. -/
def parseMantissa (s : List Char) : Option (Rat × List Char) :=
  let ip := s.takeWhile Char.isDigit
  let s1 := s.dropWhile Char.isDigit
  match s1 with
  | '.' :: s2 =>
    let fp := s2.takeWhile Char.isDigit
    let s3 := s2.dropWhile Char.isDigit
    if ip.isEmpty && fp.isEmpty then none
    else some ((digitsToNat ip : Rat) + (digitsToNat fp : Rat) / pow10 fp.length, s3)
  | _ => if ip.isEmpty then none else some ((digitsToNat ip : Rat), s1)

/-- Python's `float(s)` on decimal literals: `none` models the
`ValueError` raised on text that is not a float literal. -/
def parseFloat? (s : List Char) : Option Rat :=
  let t := stripWs s
  let sg := (parseSign t).1
  let t1 := (parseSign t).2
  match parseMantissa t1 with
  | none => none
  | some (m, rest) =>
    match rest with
    | [] => some ((sg : Rat) * m)
    | 'e' :: t2 => (parseExpPart t2).map (fun e => (sg : Rat) * applyExp m e)
    | 'E' :: t2 => (parseExpPart t2).map (fun e => (sg : Rat) * applyExp m e)
    | _ => none

/-! ## The wrapper's output parsers

Embeddings of `GuestkitWrapper._extract_duration` and
`GuestkitWrapper._extract_format_from_output`
(`integration/python/guestkit_wrapper.py`, lines 204-225). -/

/-- The body of one iteration of `_extract_duration`'s loop on a line
already known to contain `"Time:"`:
`float(line.split("Time:")[-1].strip().rstrip('s'))`, with `none` for
the `ValueError` path. -/
def extract_duration_line (line : List Char) : Option Rat :=
  parseFloat? (rstrip_s (stripWs ((splitOnSub (str "Time:") line).getLastD [])))

/-- The loop of `_extract_duration` over `output.split('\n')`: the first
line containing `"Time:"` whose sliced text parses as a float wins;
a parse failure (`except` / `pass`) moves on to the next line. -/
def extract_duration_go : List (List Char) → Rat
  | [] => 0
  | line :: rest =>
    if containsSub (str "Time:") line then
      match extract_duration_line line with
      | some q => q
      | none => extract_duration_go rest
    else extract_duration_go rest

/-- Embedding of `GuestkitWrapper._extract_duration` (lines 215-225). -/
def extract_duration (output : List Char) : Rat :=
  extract_duration_go (splitOnSub (str "\n") output)

/-- Specification-style restatement of `_extract_duration`: the value of
the first line of the output that contains `"Time:"` and whose extracted
text parses as a float, and `0.0` when no line qualifies. -/
def duration_spec (output : List Char) : Rat :=
  match (splitOnSub (str "\n") output).find?
      (fun l => containsSub (str "Time:") l && (extract_duration_line l).isSome) with
  | some l => (extract_duration_line l).getD 0
  | none => 0

/-- The loop of `_extract_format_from_output` over `output.split('\n')`:
on the first line containing the prefix tag and both parentheses it
returns `line[start+1:end]` where `start`/`end` are the indices of the
first `(` and the first `)`. -/
def extract_format_from_output_go (tag : List Char) : List (List Char) → Option (List Char)
  | [] => none
  | line :: rest =>
    if containsSub tag line && containsSub ['('] line && containsSub [')'] line then
      match line.findIdx? (fun c => c == '('), line.findIdx? (fun c => c == ')') with
      | some start, some stop => some ((line.drop (start + 1)).take (stop - (start + 1)))
      | _, _ => extract_format_from_output_go tag rest
    else extract_format_from_output_go tag rest

/-- Embedding of `GuestkitWrapper._extract_format_from_output` (lines 204-213). -/
def extract_format_from_output (output tag : List Char) : Option (List Char) :=
  extract_format_from_output_go tag (splitOnSub (str "\n") output)

/-! ## The wrapper's `convert`

`GuestkitWrapper.convert` (lines 37-130) shells out to the guestkit
binary with `subprocess.run(..., check=True)` and converts the outcome
into a `ConversionResult`.  The subprocess boundary is explicit here:
a `SpawnOutcome` is either the completed process (any exit status) or a
spawn failure (`OSError`, which `convert` does not catch). -/

/-- A completed guestkit subprocess: exit status and captured streams. -/
structure ProcResult where
  returncode : Int
  stdout : List Char
  stderr : List Char
  deriving DecidableEq

/-- What happened at the `subprocess.run` boundary. -/
inductive SpawnOutcome where
  | ran (r : ProcResult)
  | spawnFailure (msg : List Char)
  deriving DecidableEq

/-- The Python exceptions that can cross `subprocess.run(check=True)`. -/
inductive PyExc where
  | calledProcessError (r : ProcResult)
  | osError (msg : List Char)
  deriving DecidableEq

/-- Embedding of `subprocess.run(cmd, capture_output=True, text=True, check=True)`:
raises `CalledProcessError` exactly when the process ran and exited
non-zero, and propagates `OSError` when the process could not spawn. -/
def subprocess_run_check (outcome : SpawnOutcome) : Except PyExc ProcResult :=
  match outcome with
  | .spawnFailure msg => .error (.osError msg)
  | .ran r => if r.returncode == 0 then .ok r else .error (.calledProcessError r)

/-- The `ConversionResult` dataclass (lines 17-27). -/
structure ConversionResult where
  source_path : List Char
  output_path : List Char
  source_format : List Char
  output_format : List Char
  output_size : Nat
  duration_secs : Rat
  success : Bool
  error : Option (List Char)
  deriving DecidableEq

/-- Embedding of `GuestkitWrapper.convert` (lines 37-130).  `outputFileSize` stands for
`Path(output_path).stat().st_size if Path(output_path).exists() else 0`:
`none` when the output file does not exist.  The only exception caught is
`CalledProcessError`; anything else crosses the call boundary as
`Except.error`. -/
def convert (source_path output_path output_format : List Char)
    (outcome : SpawnOutcome) (outputFileSize : Option Nat) :
    Except PyExc ConversionResult :=
  match subprocess_run_check outcome with
  | .ok result =>
    .ok { source_path := source_path
          output_path := output_path
          source_format := (extract_format_from_output result.stdout (str "Source:")).getD (str "unknown")
          output_format := (extract_format_from_output result.stdout (str "Output:")).getD output_format
          output_size := outputFileSize.getD 0
          duration_secs := extract_duration result.stdout
          success := true
          error := none }
  | .error (.calledProcessError e) =>
    .ok { source_path := source_path
          output_path := output_path
          source_format := str "unknown"
          output_format := output_format
          output_size := 0
          duration_secs := 0
          success := false
          error := some e.stderr }
  | .error exc => .error exc

namespace Engine

/-! ## Container Format Decoder

The decoder itself lives in the guestkit binary, outside this tree; the
definitions below are modelled from the specification (§2.2, §4.2): a
fixed priority list of registered formats, each validated by a magic
signature at the start of the file, with fallback to raw; conversion
reads the fully resolved logical address space (walking the backing
chain, zero-filling misses) and streams it through the target format's
writer. -/

/-- Modelled from the spec: the closed set of supported container
formats (§1, §4.2). -/
inductive DiskFormat where
  | raw
  | qcow2
  | vmdk
  | vdi
  | vhd
  deriving DecidableEq

/-- Modelled from the spec: the fixed priority list of registered
formats tried during detection; raw is the fallback, not registered. -/
def registered_formats : List DiskFormat := [.qcow2, .vmdk, .vdi, .vhd]

/-- Modelled from the spec: each structured format's magic signature at
offset 0 (raw has none).  The byte values follow the published layouts
the spec requires compliance with (§6); for VDI and VHD the four
signature bytes stand in for the full header validation. -/
def magicOf : DiskFormat → List Nat
  | .raw => []
  | .qcow2 => [0x51, 0x46, 0x49, 0xFB]
  | .vmdk => [0x4B, 0x44, 0x4D, 0x56]
  | .vdi => [0x7F, 0x10, 0xDA, 0xBE]
  | .vhd => [0x63, 0x6F, 0x6E, 0x65]

/-- Modelled from the spec: one format's magic-signature validation of a
file's content (§4.2). -/
def validates (f : DiskFormat) (content : List Nat) : Bool :=
  !(magicOf f).isEmpty && isPrefixB (magicOf f) content

/-- Modelled from the spec: detection tries each registered format's
validation in priority order and falls back to raw when none
validates (§4.2). -/
def detect_format (content : List Nat) : DiskFormat :=
  match registered_formats.find? (fun f => validates f content) with
  | some f => f
  | none => .raw

/-- Modelled from the spec: detection as a pass over the file state,
returning the detected format together with the (unchanged) file
content — detection must not mutate the file (§4.2). -/
def detect_on_file (content : List Nat) : DiskFormat × List Nat :=
  (detect_format content, content)

/-- Modelled from the spec: one copy-on-write layer of an image; a cell
is `none` where the cluster is unallocated in that layer (§4.2). -/
structure ImageLayer where
  cells : List (Option Nat)
  deriving DecidableEq

/-- Modelled from the spec: a source image as its backing chain — the
live layer first, then the parents in walk order — plus its virtual
size (§3 ContainerView). -/
structure SourceImage where
  layers : List ImageLayer
  virtualSize : Nat
  deriving DecidableEq

/-- A layer's cell at a logical offset (`none` beyond the stored cells:
unallocated). -/
def lookupCell (l : ImageLayer) (off : Nat) : Option Nat :=
  l.cells.getD off none

/-- Modelled from the spec: resolving one logical offset — a miss in a
layer walks on to the next layer of the backing chain, and an exhausted
chain reads as zero (§4.2). -/
def resolve_byte : List ImageLayer → Nat → Nat
  | [], _ => 0
  | l :: rest, off =>
    match lookupCell l off with
    | some b => b
    | none => resolve_byte rest off

/-- Modelled from the spec: the fully resolved (backing-chain-flattened)
logical address space of an image, byte by byte (§4.2 Conversion). -/
def flatten_image (img : SourceImage) : List Nat :=
  (List.range img.virtualSize).map (resolve_byte img.layers)

/-- Modelled from the spec: `convert` with `flattenSnapshots` — the
resolved logical content streamed through the target format's writer,
here the target's header signature followed by the logical data (§4.2). -/
def convert_image (img : SourceImage) (target : DiskFormat) : List Nat :=
  magicOf target ++ flatten_image img

/-- Modelled from the spec: reading one byte of a self-contained image's
logical address space through its format decoder — the content past the
format header, zero beyond the end. -/
def read_logical_byte (fmt : DiskFormat) (content : List Nat) (off : Nat) : Nat :=
  (content.drop (magicOf fmt).length).getD off 0

/-! ## Handle state machine, mount table, attachment registry

The handle dispatcher also lives in the guestkit binary; the model below
follows the specification's state machine (§4.6), error taxonomy (§7),
mount-table invariants (§3) and locking discipline (§5).  Guest paths
are modelled as their component lists (`[]` is `/`, `["var","log"]` is
`/var/log`), so path nesting is list prefixing. -/

/-- Modelled from the spec: the error taxonomy (§7). -/
inductive GError where
  | IoError
  | UnsupportedFormat
  | CorruptImage
  | NoPartitionTable
  | InvalidState
  | NotLaunched
  | HandleClosed
  | PermissionDenied
  | ResourceBusy
  | NotFound
  | Cancelled
  deriving DecidableEq

/-- Modelled from the spec: a BlockSource's open mode (§3). -/
inductive Mode where
  | ro
  | rw
  deriving DecidableEq

/-- Modelled from the spec: the handle lifecycle states (§4.6); the
"has active mounts" substate is the mount table being non-empty, and
`ShuttingDown` is internal to `shutdown()`. -/
inductive HandleState where
  | configuring
  | launched
  | closed
  deriving DecidableEq

/-- Modelled from the spec: the binding of one guest path to a device
with its read-only flag (§3 MountEntry). -/
structure MountEntry where
  guestPath : List String
  device : String
  readOnly : Bool
  deriving DecidableEq

/-- Modelled from the spec: the handle session object — lifecycle state,
attached drives, mount table (§3 Handle). -/
structure Handle where
  state : HandleState
  drives : List (String × Mode)
  mounts : List MountEntry
  deriving DecidableEq

/-- Modelled from the spec: the operations of the handle API surface
relevant to the lifecycle claims (§6). -/
inductive Op where
  | attach_drive (path : String) (mode : Mode)
  | launch
  | inspect_os
  | list_partitions
  | mount (device : String) (guestPath : List String)
  | umount (guestPath : List String)
  | umount_all
  | read_file (path : List String)
  | write_file (path : List String) (data : List Nat)
  | stat_file (path : List String)
  | shutdown
  deriving DecidableEq

/-- The mount-table and file operations: everything except configuring
(`attach_drive`, `launch`) and teardown (`shutdown`). -/
def is_mount_or_file_op : Op → Bool
  | .inspect_os | .list_partitions | .mount _ _ | .umount _ | .umount_all
  | .read_file _ | .write_file _ _ | .stat_file _ => true
  | _ => false

/-- Tests that `q` is a strictly deeper guest path extending `p` — a child mount
point of `p` when both are mounted. -/
def is_proper_path_ext (p q : List String) : Bool :=
  isPrefixB p q && !(p == q)

/-- Modelled from the spec: unmounting one guest path fails while a
child mount is still present ("mount still busy", §4.6), fails with
`NotFound` when the path is not mounted, and otherwise removes the
entry. -/
def umount_one (table : List MountEntry) (p : List String) :
    Except GError (List MountEntry) :=
  if table.any (fun e => is_proper_path_ext p e.guestPath) then
    .error .ResourceBusy
  else if table.any (fun e => e.guestPath == p) then
    .ok (table.filter (fun e => e.guestPath ≠ p))
  else .error .NotFound

/-- Longest-guest-path-first order on mount entries. -/
def mountLe (a b : MountEntry) : Prop :=
  b.guestPath.length ≤ a.guestPath.length

instance : DecidableRel mountLe := fun a b =>
  Nat.decLe b.guestPath.length a.guestPath.length

instance : IsTotal MountEntry mountLe :=
  ⟨fun a b => Nat.le_total b.guestPath.length a.guestPath.length⟩

instance : IsTrans MountEntry mountLe :=
  ⟨fun _ _ _ h1 h2 => Nat.le_trans h2 h1⟩

/-- Modelled from the spec: `umount_all` releases mounts longest guest
path first (§4.6); the order it processes the table in. -/
def release_order (table : List MountEntry) : List MountEntry :=
  List.insertionSort mountLe table

/-- The release loop of `umount_all`: unmount each entry in release
order, collecting (not raising) individual failures (§4.6, §7). -/
def umount_all_go : List MountEntry → List MountEntry → List MountEntry × List GError
  | [], table => (table, [])
  | e :: rest, table =>
    match umount_one table e.guestPath with
    | .ok t2 => umount_all_go rest t2
    | .error err =>
      let r := umount_all_go rest table
      (r.1, err :: r.2)

/-- Modelled from the spec: `umount_all()` — release every mount entry,
longest guest path first, collecting failures (§4.6). -/
def umount_all (table : List MountEntry) : List MountEntry × List GError :=
  umount_all_go (release_order table) table

/-- The closed handle every `shutdown()` leaves behind. -/
def closed_handle : Handle := ⟨.closed, [], []⟩

/-- Modelled from the spec: `shutdown()` — best-effort `umount_all` with
errors collected not raised, release of all resources, transition to
`Closed` (§4.6). -/
def do_shutdown (h : Handle) : Handle × List GError :=
  (closed_handle, (umount_all h.mounts).2)

/-- Modelled from the spec: the handle dispatcher (§4.6, §7).
`shutdown` is accepted from every state (it is idempotent); every other
operation on a closed handle fails with `HandleClosed`; mount-table and
file operations before `launch()` fail with `NotLaunched`; `launch()`
twice fails with `InvalidState`.  Successful file operations are
abstracted to leaving the handle unchanged. -/
def dispatch (h : Handle) (op : Op) : Except GError (Handle × List GError) :=
  match h.state, op with
  | _, .shutdown => .ok (do_shutdown h)
  | .closed, _ => .error .HandleClosed
  | .configuring, .attach_drive p m => .ok ({ h with drives := h.drives ++ [(p, m)] }, [])
  | .configuring, .launch =>
    if h.drives.isEmpty then .error .InvalidState
    else .ok ({ h with state := .launched }, [])
  | .configuring, _ => .error .NotLaunched
  | .launched, .attach_drive _ _ => .error .InvalidState
  | .launched, .launch => .error .InvalidState
  | .launched, .mount dev p =>
    if h.mounts.any (fun e => e.guestPath == p) then .error .InvalidState
    else .ok ({ h with mounts := h.mounts ++ [⟨p, dev, false⟩] }, [])
  | .launched, .umount p =>
    match umount_one h.mounts p with
    | .ok t2 => .ok ({ h with mounts := t2 }, [])
    | .error e => .error e
  | .launched, .umount_all =>
    .ok ({ h with mounts := (umount_all h.mounts).1 }, (umount_all h.mounts).2)
  | .launched, _ => .ok (h, [])

/-- Modelled from the spec: a BlockSource attachment held by a handle in
the cross-handle registry (§5). -/
structure Attachment where
  hid : Nat
  path : String
  mode : Mode
  deriving DecidableEq

/-- Modelled from the spec: the locking discipline of `attach` — a
read-write open fails with `ResourceBusy` while another handle holds the
same path read-write; read-only opens are shared freely (§5). -/
def attach (sys : List Attachment) (hid : Nat) (path : String) (mode : Mode) :
    Except GError (List Attachment) :=
  if mode == .rw && sys.any (fun a => a.path == path && a.mode == .rw && a.hid != hid) then
    .error .ResourceBusy
  else .ok (sys ++ [⟨hid, path, mode⟩])

end Engine

/-! ## Refactored views of `convert`'s two return statements -/

/-- The `ConversionResult` built by `convert`'s success path. -/
def convert_success_result (sp op fmt : List Char) (r : ProcResult)
    (sz : Option Nat) : ConversionResult :=
  { source_path := sp
    output_path := op
    source_format := (extract_format_from_output r.stdout (str "Source:")).getD (str "unknown")
    output_format := (extract_format_from_output r.stdout (str "Output:")).getD fmt
    output_size := sz.getD 0
    duration_secs := extract_duration r.stdout
    success := true
    error := none }

/-- The `ConversionResult` built by `convert`'s `CalledProcessError`
handler. -/
def convert_failure_result (sp op fmt : List Char) (e : ProcResult) : ConversionResult :=
  { source_path := sp
    output_path := op
    source_format := str "unknown"
    output_format := fmt
    output_size := 0
    duration_secs := 0
    success := false
    error := some e.stderr }

lemma convert_eq_branches (sp op fmt : List Char) (outcome : SpawnOutcome)
    (sz : Option Nat) :
    convert sp op fmt outcome sz =
      match subprocess_run_check outcome with
      | .ok r => .ok (convert_success_result sp op fmt r sz)
      | .error (.calledProcessError e) => .ok (convert_failure_result sp op fmt e)
      | .error exc => .error exc := by
  rfl

/-! ## C9: `_extract_duration` -/

lemma extract_duration_go_eq_find (ls : List (List Char)) :
    extract_duration_go ls =
      (match ls.find?
          (fun l => containsSub (str "Time:") l && (extract_duration_line l).isSome) with
       | some l => (extract_duration_line l).getD 0
       | none => 0) := by
  induction ls with
  | nil => rfl
  | cons l rest ih =>
    simp only [extract_duration_go, List.find?]
    cases hc : containsSub (str "Time:") l with
    | false => simpa [hc] using ih
    | true =>
      cases he : extract_duration_line l with
      | none => simpa [hc, he] using ih
      | some q => simp [hc, he]

/-- C9: for every output string, `_extract_duration` returns the float
parsed from the first line containing `"Time:"` whose text after the
last `"Time:"` occurrence (whitespace-stripped, trailing `s` characters
removed) parses as a float, and returns `0.0` when no line contains
`"Time:"` or no such line's extracted text parses as a float. -/
theorem extract_duration_first_matching_line (output : List Char) :
    extract_duration output = duration_spec output := by
  unfold extract_duration duration_spec
  exact extract_duration_go_eq_find _

/-! ## C4: `convert` returns, never raises -/

/-- C4: for every invocation of `convert`, with any paths and options and
any outcome of the guestkit process itself (any exit status and captured
streams), the call returns an explicit `ConversionResult` — never an
exception — and the result's success flag tracks the exit status. -/
theorem convert_returns_result_never_raises
    (sp op fmt : List Char) (proc : ProcResult) (sz : Option Nat) :
    ∃ cr : ConversionResult,
      convert sp op fmt (.ran proc) sz = .ok cr ∧
        cr.success = (proc.returncode == 0) := by
  rw [convert_eq_branches]
  unfold subprocess_run_check
  by_cases h : proc.returncode = 0
  · exact ⟨convert_success_result sp op fmt proc sz, by simp [h],
      by simp [convert_success_result, h]⟩
  · exact ⟨convert_failure_result sp op fmt proc, by simp [h],
      by simp [convert_failure_result, h]⟩

/-! ## C10: `convert`'s branches field by field -/

/-- C10: whenever the guestkit subprocess exits non-zero, `convert`
returns a `ConversionResult` with `success = False`, `output_size = 0`,
`duration_secs = 0.0`, `source_format = "unknown"` and `error` equal to
the captured stderr; whenever it exits zero, the result has
`success = True` and `error = None`. -/
theorem convert_error_and_success_branches
    (sp op fmt : List Char) (proc : ProcResult) (sz : Option Nat) :
    (proc.returncode ≠ 0 →
      convert sp op fmt (.ran proc) sz = .ok
        { source_path := sp, output_path := op, source_format := str "unknown",
          output_format := fmt, output_size := 0, duration_secs := 0,
          success := false, error := some proc.stderr }) ∧
    (proc.returncode = 0 →
      ∃ cr, convert sp op fmt (.ran proc) sz = .ok cr ∧
        cr.success = true ∧ cr.error = none) := by
  constructor
  · intro h
    rw [convert_eq_branches]
    unfold subprocess_run_check
    have hb : (proc.returncode == 0) = false := beq_eq_false_iff_ne.mpr h
    simp [hb, convert_failure_result]
  · intro h
    refine ⟨convert_success_result sp op fmt proc sz, ?_, rfl, rfl⟩
    rw [convert_eq_branches]
    unfold subprocess_run_check
    simp [h]

/-- Closed instance of `convert_error_and_success_branches` at concrete
inputs: a failing process (exit 1, stderr `"boom"`) and a succeeding
process (exit 0). -/
theorem convert_error_and_success_branches_witness :
    ((1 : Int) ≠ 0 ∧
      convert (str "/a.vmdk") (str "/b.qcow2") (str "qcow2")
        (.ran ⟨1, [], str "boom"⟩) none = .ok
          { source_path := str "/a.vmdk", output_path := str "/b.qcow2",
            source_format := str "unknown", output_format := str "qcow2",
            output_size := 0, duration_secs := 0, success := false,
            error := some (str "boom") }) ∧
    ((0 : Int) = 0 ∧
      ∃ cr, convert (str "/a.vmdk") (str "/b.qcow2") (str "qcow2")
        (.ran ⟨0, [], []⟩) none = .ok cr ∧ cr.success = true ∧ cr.error = none) :=
  ⟨⟨by decide, (convert_error_and_success_branches _ _ _ _ _).1 (by decide)⟩,
   ⟨rfl, (convert_error_and_success_branches _ _ _ _ _).2 rfl⟩⟩

/-! ## C2: conversion preserves content -/

/-- C2: reading back any byte at any in-range offset of a converted
image's logical address space equals resolving the same offset of the
source's backing chain (flattened, zero-filled) — conversion loses or
alters no content. -/
theorem convert_preserves_content (img : Engine.SourceImage)
    (fmt : Engine.DiskFormat) (off : Nat) (hoff : off < img.virtualSize) :
    Engine.read_logical_byte fmt (Engine.convert_image img fmt) off =
      Engine.resolve_byte img.layers off := by
  unfold Engine.read_logical_byte Engine.convert_image Engine.flatten_image
  rw [List.drop_left]
  rw [List.getD_eq_getElem?_getD, List.getElem?_map, List.getElem?_range hoff]
  rfl

/-- A two-layer sample image: offset 0 allocated only in the parent,
offset 1 allocated in both, offset 2 allocated nowhere (zero-fill). -/
def sample_image : Engine.SourceImage :=
  ⟨[⟨[none, some 7]⟩, ⟨[some 5, some 9]⟩], 3⟩

/-- Closed instance of `convert_preserves_content` at a concrete image,
format and offset. -/
theorem convert_preserves_content_witness :
    1 < sample_image.virtualSize ∧
      Engine.read_logical_byte .qcow2 (Engine.convert_image sample_image .qcow2) 1 =
        Engine.resolve_byte sample_image.layers 1 :=
  ⟨by decide, convert_preserves_content sample_image .qcow2 1 (by decide)⟩

/-! ## C5: detection falls back to raw and does not mutate -/

lemma detect_format_eq_raw (content : List Nat)
    (h : ∀ f ∈ Engine.registered_formats, Engine.validates f content = false) :
    Engine.detect_format content = .raw := by
  unfold Engine.detect_format
  cases hf : Engine.registered_formats.find? (fun f => Engine.validates f content) with
  | none => rfl
  | some f =>
    have h1 := List.find?_some hf
    have h2 := List.mem_of_find?_eq_some hf
    rw [h f h2] at h1
    cases h1

/-- C5: for every file content that no registered format's
magic-signature validation accepts, detection reports raw — not a
failure, not an unknown format — and returns the file content
unchanged. -/
theorem detect_falls_back_to_raw (content : List Nat)
    (h : ∀ f ∈ Engine.registered_formats, Engine.validates f content = false) :
    Engine.detect_on_file content = (.raw, content) := by
  unfold Engine.detect_on_file
  rw [detect_format_eq_raw content h]

/-- Closed instance of `detect_falls_back_to_raw` on a content with no
registered magic. -/
theorem detect_falls_back_to_raw_witness :
    (∀ f ∈ Engine.registered_formats, Engine.validates f [0, 0, 0, 0] = false) ∧
      Engine.detect_on_file [0, 0, 0, 0] = (.raw, [0, 0, 0, 0]) :=
  ⟨by decide, detect_falls_back_to_raw _ (by decide)⟩

/-! ## C1: round-trip format identity -/

lemma isPrefixB_append_self {α : Type} [BEq α] [LawfulBEq α] :
    ∀ (l t : List α), isPrefixB l (l ++ t) = true
  | [], _ => rfl
  | a :: as, t => by simp [isPrefixB, isPrefixB_append_self as t]

/-- An image whose flattened logical content starts with the qcow2 magic
signature. -/
def qcow2_magic_payload_image : Engine.SourceImage :=
  ⟨[⟨[some 0x51, some 0x46, some 0x49, some 0xFB]⟩], 4⟩

/-- C1 counterexample: converting an image whose logical content begins
with the qcow2 magic to the raw target format produces an output that
detection reports as qcow2, not raw — the round-trip identity fails for
the raw target. -/
theorem roundtrip_format_identity_counterexample :
    Engine.detect_format
        (Engine.convert_image qcow2_magic_payload_image .raw) ≠ .raw := by
  decide

lemma validates_eq_of_both (g1 g2 : Engine.DiskFormat) (c : List Nat)
    (h1 : g1 ∈ Engine.registered_formats) (h2 : g2 ∈ Engine.registered_formats)
    (hv1 : Engine.validates g1 c = true) (hv2 : Engine.validates g2 c = true) :
    g1 = g2 := by
  simp only [Engine.registered_formats] at h1 h2
  cases c with
  | nil =>
    fin_cases h1 <;> simp [Engine.validates, Engine.magicOf, isPrefixB] at hv1
  | cons b bs =>
    fin_cases h1 <;> fin_cases h2 <;>
      simp_all [Engine.validates, Engine.magicOf, isPrefixB] <;> omega

lemma detect_format_of_validates (g : Engine.DiskFormat) (c : List Nat)
    (hg : g ∈ Engine.registered_formats) (hv : Engine.validates g c = true) :
    Engine.detect_format c = g := by
  unfold Engine.detect_format
  cases hf : Engine.registered_formats.find? (fun f => Engine.validates f c) with
  | none =>
    have hall := List.find?_eq_none.mp hf g hg
    exact absurd hv (by simpa using hall)
  | some f =>
    have hp := List.find?_some hf
    have hm := List.mem_of_find?_eq_some hf
    exact validates_eq_of_both f g c hm hg hp hv

lemma registered_ne_raw (g : Engine.DiskFormat)
    (hg : g ∈ Engine.registered_formats) : g ≠ .raw := by
  simp only [Engine.registered_formats] at hg
  fin_cases hg <;> decide

/-- C1 amended: for every structured (non-raw) supported target format
the round-trip identity holds unconditionally; for the raw target it
holds exactly when no registered format's magic validation claims the
image's flattened content, and otherwise detection reports the (unique)
registered format whose magic the content begins with. -/
theorem roundtrip_format_identity_amended (img : Engine.SourceImage)
    (fmt : Engine.DiskFormat) :
    (fmt ∈ Engine.registered_formats →
      Engine.detect_format (Engine.convert_image img fmt) = fmt) ∧
    (Engine.detect_format (Engine.convert_image img .raw) = .raw ↔
      ∀ g ∈ Engine.registered_formats,
        Engine.validates g (Engine.flatten_image img) = false) ∧
    (∀ g ∈ Engine.registered_formats,
      Engine.validates g (Engine.flatten_image img) = true →
        Engine.detect_format (Engine.convert_image img .raw) = g) := by
  have hc : Engine.convert_image img .raw = Engine.flatten_image img := by
    simp [Engine.convert_image, Engine.magicOf]
  refine ⟨?_, ⟨?_, ?_⟩, ?_⟩
  · intro hf
    simp only [Engine.registered_formats] at hf
    unfold Engine.convert_image Engine.detect_format
    fin_cases hf <;>
      simp [Engine.registered_formats, List.find?, Engine.validates, Engine.magicOf,
        isPrefixB, List.cons_append, List.nil_append, isPrefixB_append_self]
  · intro hdet g hg
    cases hv : Engine.validates g (Engine.flatten_image img) with
    | false => rfl
    | true =>
      exfalso
      have hdg : Engine.detect_format (Engine.flatten_image img) = g :=
        detect_format_of_validates g _ hg hv
      rw [hc] at hdet
      rw [hdet] at hdg
      exact registered_ne_raw g hg hdg.symm
  · intro hall
    rw [hc]
    exact detect_format_eq_raw _ hall
  · intro g hg hv
    rw [hc]
    exact detect_format_of_validates g _ hg hv

/-- Closed instance of `roundtrip_format_identity_amended`: the vmdk
round trip on the sample image, the raw round trip on the same image
(whose content carries no registered magic), and the "otherwise" half on
the image whose content begins with the qcow2 magic. -/
theorem roundtrip_format_identity_amended_witness :
    (Engine.DiskFormat.vmdk ∈ Engine.registered_formats ∧
      Engine.detect_format (Engine.convert_image sample_image .vmdk) = .vmdk) ∧
    ((∀ g ∈ Engine.registered_formats,
        Engine.validates g (Engine.flatten_image sample_image) = false) ∧
      Engine.detect_format (Engine.convert_image sample_image .raw) = .raw) ∧
    (Engine.DiskFormat.qcow2 ∈ Engine.registered_formats ∧
      Engine.validates .qcow2 (Engine.flatten_image qcow2_magic_payload_image) = true ∧
      Engine.detect_format (Engine.convert_image qcow2_magic_payload_image .raw) =
        .qcow2) :=
  ⟨⟨by decide, (roundtrip_format_identity_amended sample_image .vmdk).1 (by decide)⟩,
   ⟨by decide,
    ((roundtrip_format_identity_amended sample_image .raw).2.1).mpr (by decide)⟩,
   ⟨by decide, by decide,
    (roundtrip_format_identity_amended qcow2_magic_payload_image .raw).2.2
      .qcow2 (by decide) (by decide)⟩⟩

/-! ## C3: lifecycle misuse reported with distinct errors -/

/-- C3: every mount-table or file operation issued on a handle that has
not been launched fails with `NotLaunched`, and every operation other
than `shutdown` issued on a closed handle fails with `HandleClosed` —
lifecycle misuse surfaces as exactly these errors, never as a storage or
format failure. -/
theorem lifecycle_misuse_errors (h : Engine.Handle) (op : Engine.Op) :
    (h.state = .configuring → Engine.is_mount_or_file_op op = true →
      Engine.dispatch h op = .error .NotLaunched) ∧
    (h.state = .closed → op ≠ .shutdown →
      Engine.dispatch h op = .error .HandleClosed) := by
  obtain ⟨st, dr, mt⟩ := h
  constructor
  · intro hs hop
    subst hs
    cases op <;> simp_all [Engine.dispatch, Engine.is_mount_or_file_op]
  · intro hs hop
    subst hs
    cases op <;> simp_all [Engine.dispatch]

/-- Closed instance of `lifecycle_misuse_errors`: `inspect_os` before
`launch()` and `mount` after `shutdown()`. -/
theorem lifecycle_misuse_errors_witness :
    Engine.dispatch ⟨.configuring, [], []⟩ .inspect_os = .error .NotLaunched ∧
      Engine.dispatch Engine.closed_handle (.mount "/dev/sda1" []) =
        .error .HandleClosed :=
  ⟨(lifecycle_misuse_errors ⟨.configuring, [], []⟩ .inspect_os).1 rfl rfl,
   (lifecycle_misuse_errors Engine.closed_handle (.mount "/dev/sda1" [])).2 rfl
     (by decide)⟩

/-! ## C8: `shutdown()` idempotent from every state -/

/-- C8: `shutdown` succeeds from every handle state, collecting (not
raising) any unmount failures, and leaves the closed handle; a second
`shutdown` on the already-closed handle succeeds with no errors and
leaves the same closed state. -/
theorem shutdown_idempotent_from_any_state (h : Engine.Handle) :
    ∃ errs, Engine.dispatch h .shutdown = .ok (Engine.closed_handle, errs) ∧
      Engine.dispatch Engine.closed_handle .shutdown =
        .ok (Engine.closed_handle, []) := by
  refine ⟨(Engine.umount_all h.mounts).2, ?_, ?_⟩
  · obtain ⟨st, dr, mt⟩ := h
    cases st <;> simp [Engine.dispatch, Engine.do_shutdown]
  · simp [Engine.dispatch, Engine.do_shutdown, Engine.closed_handle, Engine.umount_all,
      Engine.release_order, Engine.umount_all_go, List.insertionSort]

/-! ## C6: read-write attachments are exclusive across handles -/

/-- C6: with the same image path, a second handle's read-write `attach`
fails with `ResourceBusy` while the first handle holds the path
read-write, and read-only attaches from two handles both succeed. -/
theorem attach_rw_exclusive_ro_shared (p : String) (h1 h2 : Nat) (hne : h1 ≠ h2) :
    (Engine.attach [] h1 p .rw = .ok [⟨h1, p, .rw⟩] ∧
      Engine.attach [⟨h1, p, .rw⟩] h2 p .rw = .error .ResourceBusy) ∧
    (Engine.attach [] h1 p .ro = .ok [⟨h1, p, .ro⟩] ∧
      Engine.attach [⟨h1, p, .ro⟩] h2 p .ro = .ok [⟨h1, p, .ro⟩, ⟨h2, p, .ro⟩]) := by
  refine ⟨⟨?_, ?_⟩, ⟨?_, ?_⟩⟩
  · simp [Engine.attach]
  · simp [Engine.attach, hne]
  · simp [Engine.attach]
  · simp [Engine.attach]

/-- Closed instance of `attach_rw_exclusive_ro_shared` on two distinct
handles and one path. -/
theorem attach_rw_exclusive_ro_shared_witness :
    (0 : Nat) ≠ 1 ∧
      ((Engine.attach [] 0 "disk.img" .rw = .ok [⟨0, "disk.img", .rw⟩] ∧
        Engine.attach [⟨0, "disk.img", .rw⟩] 1 "disk.img" .rw =
          .error .ResourceBusy) ∧
       (Engine.attach [] 0 "disk.img" .ro = .ok [⟨0, "disk.img", .ro⟩] ∧
        Engine.attach [⟨0, "disk.img", .ro⟩] 1 "disk.img" .ro =
          .ok [⟨0, "disk.img", .ro⟩, ⟨1, "disk.img", .ro⟩])) :=
  ⟨by decide, attach_rw_exclusive_ro_shared "disk.img" 0 1 (by decide)⟩

/-! ## C7: `umount_all` releases children before parents -/

lemma isPrefixB_length_le {α : Type} [BEq α] :
    ∀ (p q : List α), isPrefixB p q = true → p.length ≤ q.length
  | [], _, _ => Nat.zero_le _
  | _ :: _, [], h => by simp [isPrefixB] at h
  | a :: as, b :: bs, h => by
    simp only [isPrefixB, Bool.and_eq_true] at h
    simpa using Nat.succ_le_succ (isPrefixB_length_le as bs h.2)

lemma isPrefixB_eq_of_length_le {α : Type} [BEq α] [LawfulBEq α] :
    ∀ (p q : List α), isPrefixB p q = true → q.length ≤ p.length → p = q
  | [], [], _, _ => rfl
  | [], _ :: _, _, hl => by simp at hl
  | _ :: _, [], h, _ => by simp [isPrefixB] at h
  | a :: as, b :: bs, h, hl => by
    simp only [isPrefixB, Bool.and_eq_true, beq_iff_eq] at h
    obtain ⟨rfl, h2⟩ := h
    simp only [List.length_cons, Nat.succ_le_succ_iff] at hl
    rw [isPrefixB_eq_of_length_le as bs h2 hl]

lemma proper_ext_length_lt (p q : List String)
    (h : Engine.is_proper_path_ext p q = true) : p.length < q.length := by
  simp only [Engine.is_proper_path_ext, Bool.and_eq_true] at h
  rcases Nat.lt_or_ge p.length q.length with hlt | hge
  · exact hlt
  · exact absurd (isPrefixB_eq_of_length_le p q h.1 hge)
      (by simpa using h.2)

lemma umount_all_go_clears :
    ∀ (rest table : List Engine.MountEntry),
      table.Perm rest →
      List.Sorted Engine.mountLe rest →
      (rest.map (fun e => e.guestPath)).Nodup →
      Engine.umount_all_go rest table = ([], []) := by
  intro rest
  induction rest with
  | nil =>
    intro table hperm _ _
    rw [List.Perm.eq_nil hperm]
    rfl
  | cons e rest ih =>
    intro table hperm hsort hnd
    have hsorted := List.sorted_cons.mp hsort
    simp only [List.map_cons, List.nodup_cons] at hnd
    have hbusy : table.any
        (fun x => Engine.is_proper_path_ext e.guestPath x.guestPath) = false := by
      rw [Bool.eq_false_iff]
      intro hany
      obtain ⟨x, hx, hpx⟩ := List.any_eq_true.mp hany
      rcases List.mem_cons.mp (hperm.mem_iff.mp hx) with rfl | hxr
      · simp [Engine.is_proper_path_ext] at hpx
      · have hle : x.guestPath.length ≤ e.guestPath.length := hsorted.1 x hxr
        have hlt := proper_ext_length_lt _ _ hpx
        omega
    have hfound : table.any (fun x => x.guestPath == e.guestPath) = true :=
      List.any_eq_true.mpr ⟨e, hperm.mem_iff.mpr (List.mem_cons_self e rest), by simp⟩
    have hone : Engine.umount_one table e.guestPath =
        .ok (table.filter (fun x => x.guestPath ≠ e.guestPath)) := by
      simp [Engine.umount_one, hbusy, hfound]
    simp only [Engine.umount_all_go, hone]
    apply ih
    · have h1 := hperm.filter (fun x => decide (x.guestPath ≠ e.guestPath))
      have h2 : (e :: rest).filter (fun x => decide (x.guestPath ≠ e.guestPath)) = rest := by
        rw [List.filter_cons_of_neg (by simp)]
        apply List.filter_eq_self.mpr
        intro x hxr
        have : x.guestPath ≠ e.guestPath := by
          intro hcontra
          exact hnd.1 (hcontra ▸ List.mem_map_of_mem (fun y => y.guestPath) hxr)
        simpa using this
      exact h2 ▸ h1
    · exact hsorted.2
    · exact hnd.2

/-- The nested three-level mount table of the specification's test
scenario: `/`, `/var`, `/var/log`. -/
def sample_mounts : List Engine.MountEntry :=
  [⟨[], "/dev/sda2", true⟩, ⟨["var"], "/dev/sda3", true⟩,
   ⟨["var", "log"], "/dev/sda4", true⟩]

/-- C7: `umount_all` releases the mount entries longest guest path
first — the release order is non-increasing in guest-path length, so no
entry is released before any of its child mounts — and on a mount table
with distinct guest paths it empties the table with no "mount still
busy" (or any other) error. -/
theorem umount_all_children_before_parents (table : List Engine.MountEntry)
    (hnd : (table.map (fun e => e.guestPath)).Nodup) :
    Engine.umount_all table = ([], []) ∧
    List.Sorted Engine.mountLe (Engine.release_order table) ∧
    (Engine.release_order table).Pairwise
      (fun a b => Engine.is_proper_path_ext a.guestPath b.guestPath = false) := by
  refine ⟨?_, ?_, ?_⟩
  · unfold Engine.umount_all
    apply umount_all_go_clears
    · exact (List.perm_insertionSort _ table).symm
    · exact List.sorted_insertionSort _ _
    · have hp : List.Perm ((Engine.release_order table).map (fun e => e.guestPath))
          (table.map (fun e => e.guestPath)) :=
        (List.perm_insertionSort _ table).map _
      exact hp.nodup_iff.mpr hnd
  · exact List.sorted_insertionSort _ _
  · refine List.Pairwise.imp ?_ (List.sorted_insertionSort Engine.mountLe table)
    intro a b hle
    cases hb : Engine.is_proper_path_ext a.guestPath b.guestPath with
    | false => rfl
    | true =>
      have := proper_ext_length_lt _ _ hb
      exact absurd hle (by unfold Engine.mountLe; omega)

/-- Closed instance of `umount_all_children_before_parents` on the
three-level nested table `/`, `/var`, `/var/log`. -/
theorem umount_all_children_before_parents_witness :
    (sample_mounts.map (fun e => e.guestPath)).Nodup ∧
      (Engine.umount_all sample_mounts = ([], []) ∧
       List.Sorted Engine.mountLe (Engine.release_order sample_mounts) ∧
       (Engine.release_order sample_mounts).Pairwise
         (fun a b => Engine.is_proper_path_ext a.guestPath b.guestPath = false)) :=
  ⟨by decide, umount_all_children_before_parents sample_mounts (by decide)⟩

end Guestkit
